import Mathlib

/- Shallow embedding of `src/tinnitus_noise_matching.py`.

The signal-processing core (`generate_white_noise`, `generate_bandpass_noise`)
is embedded over exact rationals: Python floats become `ℚ`, the Python `int(x)`
truncation becomes `pyInt`, and a library call that raises becomes
`Except.error`.  External library behaviour that the source relies on is
embedded from the documented library contracts:

* `np.random.uniform(-1, 1, n)` raises `ValueError` when `n < 0` and
  otherwise returns `n` draws; the draws are modelled by an explicit
  source `rng : ℕ → ℚ` (the uniform distribution itself is abstracted
  to an arbitrary stream of sample values).
* `scipy.signal.butter(N=4, Wn=[low, high], btype=band)` raises
  `ValueError` unless `0 < low < 1`, `0 < high < 1` and `low < high`
  (digital critical frequencies must lie strictly inside the open unit
  interval and be ascending); the numeric coefficient computation
  (bilinear transform, transcendental) is abstracted by a coefficient
  `design` parameter.
* `scipy.signal.lfilter(b, a, x)` is the causal direct-form IIR
  difference equation with zero initial state, normalised by the leading
  denominator coefficient.

The interactive session `tinnitus_matching` (lines 83-139) is embedded over
`ℝ` (the centre frequency becomes irrational after one multiplicative step),
as a recursive function over the finite list of operator inputs, emitting the
trace of synthesis/playback/feedback events the loop performs.  The loop body
contains no exception handler, so a `ValueError` raised by synthesis is
modelled as the `crashed` outcome. -/

/-- The Python `int(x)` conversion applied to a float: truncation toward zero. -/
def pyInt {α : Type} [LinearOrderedField α] [FloorRing α] (q : α) : ℤ :=
  if 0 ≤ q then ⌊q⌋ else ⌈q⌉

/-- The single error kind raised by the numpy/scipy calls the source makes. -/
inductive PyError : Type
  | valueError : PyError
deriving DecidableEq

/-- `lowcut = max(0, centre_freq - bandwidth / 2)` (line 45 of the source). -/
def lowcut {α : Type} [LinearOrderedField α] (centre_freq bandwidth : α) : α :=
  max 0 (centre_freq - bandwidth / 2)

/-- `highcut = min(sample_rate / 2, centre_freq + bandwidth / 2)` (line 46). -/
def highcut {α : Type} [LinearOrderedField α] (centre_freq bandwidth sample_rate : α) : α :=
  min (sample_rate / 2) (centre_freq + bandwidth / 2)

/-- `low = lowcut / nyquist` with `nyquist = 0.5 * sample_rate` (lines 49-50). -/
def wlow {α : Type} [LinearOrderedField α] (centre_freq bandwidth sample_rate : α) : α :=
  lowcut centre_freq bandwidth / (1/2 * sample_rate)

/-- `high = highcut / nyquist` (lines 49-51). -/
def whigh {α : Type} [LinearOrderedField α] (centre_freq bandwidth sample_rate : α) : α :=
  highcut centre_freq bandwidth sample_rate / (1/2 * sample_rate)

/-- The validity check `scipy.signal.butter` performs on digital band-pass
critical frequencies: both strictly inside the open unit interval, and
ascending. -/
def butterValid {α : Type} [LinearOrderedField α] (low high : α) : Prop :=
  0 < low ∧ low < 1 ∧ 0 < high ∧ high < 1 ∧ low < high

instance {α : Type} [LinearOrderedField α] (low high : α) :
    Decidable (butterValid low high) := by
  unfold butterValid; infer_instance

/-- `butter(N=4, Wn=[low, high], btype=band)` (line 52): validate the critical
frequencies, then hand off to the numeric coefficient computation, which is
abstracted as `design`. -/
def butter4band (design : ℚ → ℚ → List ℚ × List ℚ) (low high : ℚ) :
    Except PyError (List ℚ × List ℚ) :=
  if butterValid low high then .ok (design low high) else .error .valueError

/-- `generate_white_noise` (lines 10-23):
`noise = np.random.uniform(-1, 1, int(duration_sec * sample_rate))`.
numpy raises `ValueError` on a negative size and otherwise returns that many
draws from the random source. -/
def generate_white_noise (rng : ℕ → ℚ) (duration_sec sample_rate : ℚ) :
    Except PyError (List ℚ) :=
  let n : ℤ := pyInt (duration_sec * sample_rate)
  if n < 0 then .error .valueError
  else .ok ((List.range n.toNat).map rng)

/-- One tap sum of `lfilter`: `∑ cs[i] * hist[i]` where `hist` lists the most
recent sample first and history before the start of the signal is absent
(zero initial state). -/
def dotp (cs hist : List ℚ) : ℚ :=
  (List.zipWith (fun c x => c * x) cs hist).sum

/-- The recursion of `lfilter`: `a0 * y[n] = ∑ b[i] x[n-i] - ∑ a[j] y[n-j]`,
carrying the reversed input and output histories. -/
def lfilterAux (b arest : List ℚ) (a0 : ℚ) :
    List ℚ → List ℚ → List ℚ → List ℚ
  | [], _, _ => []
  | x :: xs, xh, yh =>
      let xh2 := x :: xh
      let y := (dotp b xh2 - dotp arest yh) / a0
      y :: lfilterAux b arest a0 xs xh2 (y :: yh)

/-- `lfilter(b, a, x)` (line 55): direct-form recursive evaluation with zero
initial conditions, normalised by the leading denominator coefficient. -/
def lfilter (b a x : List ℚ) : List ℚ :=
  lfilterAux b a.tail (a.headD 0) x [] []

/-- `generate_bandpass_noise` (lines 28-57): generate white noise, clamp the
cut-offs, normalise by Nyquist, design the 4th-order Butterworth band-pass
filter, and apply it.  Any `ValueError` raised inside propagates out. -/
def generate_bandpass_noise (design : ℚ → ℚ → List ℚ × List ℚ) (rng : ℕ → ℚ)
    (centre_freq bandwidth duration_sec sample_rate : ℚ) :
    Except PyError (List ℚ) := do
  let white_noise ← generate_white_noise rng duration_sec sample_rate
  let ba ← butter4band design (wlow centre_freq bandwidth sample_rate)
      (whigh centre_freq bandwidth sample_rate)
  .ok (lfilter ba.1 ba.2 white_noise)

deriving instance DecidableEq for Except

/-- A fixed all-zero random source, used to evaluate the model at concrete
inputs. -/
def rng0 : ℕ → ℚ := fun _ => 0

/-- A fixed stand-in for the abstract Butterworth coefficient computation,
used to evaluate the model at concrete inputs. -/
def design0 : ℚ → ℚ → List ℚ × List ℚ := fun _ _ => ([1], [1])

/-- The mutable locals of `tinnitus_matching` (lines 88-93): centre frequency,
bandwidth, duration and sample rate. -/
structure MatchState : Type where
  centre_freq : ℝ
  bandwidth : ℝ
  duration_sec : ℝ
  sample_rate : ℝ

/-- `octave_factor = 2 ** (1/3)` (line 98). -/
noncomputable def octave_factor : ℝ := (2 : ℝ) ^ ((1 : ℝ) / 3)

/-- The initial parameters of the session (lines 88-93): sample rate 44100,
duration 3 s, centre 2000 Hz, bandwidth 320 Hz. -/
noncomputable def initial_state : MatchState :=
  { centre_freq := 2000, bandwidth := 320, duration_sec := 3, sample_rate := 44100 }

/-- What the dispatch on `user_input` (lines 120-137) decides to do next:
keep looping, break out of the loop, or report invalid input and loop. -/
inductive CmdKind : Type
  | loop : CmdKind
  | exit : CmdKind
  | invalid : CmdKind
deriving DecidableEq

/-- The `if/elif` chain on `user_input` (lines 120-137): the mutated state
together with what the loop does next.  Any unrecognized input falls through
to the `else` branch, which reports invalid-input feedback and loops. -/
noncomputable def dispatch (s : MatchState) (user_input : String) :
    MatchState × CmdKind :=
  if user_input = "1" then ({ s with centre_freq := s.centre_freq * octave_factor }, .loop)
  else if user_input = "2" then ({ s with centre_freq := s.centre_freq / octave_factor }, .loop)
  else if user_input = "3" then ({ s with bandwidth := s.bandwidth + 50 }, .loop)
  else if user_input = "4" then ({ s with bandwidth := s.bandwidth - 50 }, .loop)
  else if user_input = "5" then ({ s with duration_sec := s.duration_sec + 1 }, .loop)
  else if user_input = "6" then ({ s with duration_sec := s.duration_sec - 1 }, .loop)
  else if user_input = "7" then (s, .loop)
  else if user_input = "0" then (s, .exit)
  else (s, .invalid)

/-- The observable events of one session: a synthesis call with the current
parameters, a (blocking) playback hand-off, and invalid-input feedback. -/
inductive SessionEvent : Type
  | synth (centre_freq bandwidth duration_sec : ℝ) : SessionEvent
  | play : SessionEvent
  | feedback : SessionEvent

/-- How a session run ends: the snapshot returned on line 139, an uncaught
`ValueError` from synthesis (the loop has no exception handler), or the loop
blocking on `input()` once the scripted inputs are exhausted (the session is
still active). -/
inductive SessionOutcome : Type
  | finished (snapshot : ℝ × ℝ × ℝ × ℝ) : SessionOutcome
  | crashed : SessionOutcome
  | awaitingInput (s : MatchState) : SessionOutcome

/-- Whether `generate_bandpass_noise` succeeds on the current parameters
(over `ℝ`): the numpy size is nonnegative and the butter critical
frequencies pass validation. -/
def synthOK (s : MatchState) : Prop :=
  0 ≤ pyInt (s.duration_sec * s.sample_rate) ∧
    butterValid (wlow s.centre_freq s.bandwidth s.sample_rate)
      (whigh s.centre_freq s.bandwidth s.sample_rate)

noncomputable instance (s : MatchState) : Decidable (synthOK s) := by
  unfold synthOK; infer_instance

/-- The `while True` loop of `tinnitus_matching` (lines 100-137), run on a
finite list of scripted operator inputs.  Each iteration synthesizes the
band-pass noise at the current parameters and plays it before reading the
next input; an unrecognized input reports feedback and loops; input `0`
breaks and returns the snapshot `(centre_freq, bandwidth, sample_rate,
duration_sec)`; a synthesis failure is an uncaught exception and aborts
the whole session. -/
noncomputable def tinnitus_matching :
    MatchState → List String → List SessionEvent × SessionOutcome
  | s, [] =>
    if synthOK s then
      ([SessionEvent.synth s.centre_freq s.bandwidth s.duration_sec,
        SessionEvent.play], .awaitingInput s)
    else ([], .crashed)
  | s, user_input :: rest =>
    if synthOK s then
      match dispatch s user_input with
      | (s2, .exit) =>
          ([SessionEvent.synth s.centre_freq s.bandwidth s.duration_sec,
            SessionEvent.play],
            .finished (s2.centre_freq, s2.bandwidth, s2.sample_rate, s2.duration_sec))
      | (s2, .loop) =>
          let r := tinnitus_matching s2 rest
          (SessionEvent.synth s.centre_freq s.bandwidth s.duration_sec ::
            SessionEvent.play :: r.1, r.2)
      | (s2, .invalid) =>
          let r := tinnitus_matching s2 rest
          (SessionEvent.synth s.centre_freq s.bandwidth s.duration_sec ::
            SessionEvent.play :: SessionEvent.feedback :: r.1, r.2)
    else ([], .crashed)

/-- The filtered signal has exactly one output sample per input sample,
whatever the coefficients and histories. -/
theorem lfilterAux_length (b arest : List ℚ) (a0 : ℚ) :
    ∀ (x xh yh : List ℚ), (lfilterAux b arest a0 x xh yh).length = x.length := by
  intro x
  induction x with
  | nil => intro xh yh; rfl
  | cons a x ih => intro xh yh; simp [lfilterAux, ih]

/-- `lfilter` preserves the buffer length. -/
theorem lfilter_length (b a x : List ℚ) : (lfilter b a x).length = x.length := by
  simp [lfilter, lfilterAux_length]

theorem octave_factor_pos : 0 < octave_factor :=
  Real.rpow_pos_of_pos two_pos _

/-- The one-third-octave step really is the cube root of two. -/
theorem octave_factor_cube : octave_factor ^ 3 = 2 := by
  rw [octave_factor, ← Real.rpow_natCast ((2:ℝ) ^ ((1:ℝ)/3)) 3,
    ← Real.rpow_mul (by norm_num)]
  norm_num

theorem octave_factor_lb : (1259915/1000000 : ℝ) < octave_factor := by
  have h : ((1259915/1000000 : ℝ)) ^ 3 < octave_factor ^ 3 := by
    rw [octave_factor_cube]; norm_num
  exact lt_of_pow_lt_pow_left₀ 3 octave_factor_pos.le h

theorem octave_factor_ub : octave_factor < (1259922/1000000 : ℝ) := by
  have h : octave_factor ^ 3 < ((1259922/1000000 : ℝ)) ^ 3 := by
    rw [octave_factor_cube]; norm_num
  exact lt_of_pow_lt_pow_left₀ 3 (by norm_num) h

theorem octave_factor_gt_one : 1 < octave_factor := by
  have := octave_factor_lb; linarith

/-- Synthesis succeeds whenever the band sits strictly inside the open
spectral range and duration is nonnegative. -/
theorem synthOK_of {s : MatchState} (hb : 0 < s.bandwidth)
    (hlow : 0 < s.centre_freq - s.bandwidth/2)
    (hhigh : s.centre_freq + s.bandwidth/2 < s.sample_rate/2)
    (hd : 0 ≤ s.duration_sec) (hr : 0 < s.sample_rate) :
    synthOK s := by
  have hr2 : (0:ℝ) < 1/2 * s.sample_rate := by linarith
  have hlc : lowcut s.centre_freq s.bandwidth = s.centre_freq - s.bandwidth/2 :=
    max_eq_right hlow.le
  have hhc : highcut s.centre_freq s.bandwidth s.sample_rate =
      s.centre_freq + s.bandwidth/2 := min_eq_right (by linarith)
  refine ⟨?_, ?_, ?_, ?_, ?_, ?_⟩
  · have hdr : 0 ≤ s.duration_sec * s.sample_rate := mul_nonneg hd hr.le
    simp only [pyInt, if_pos hdr]
    exact Int.floor_nonneg.mpr hdr
  · rw [wlow, hlc]
    exact div_pos hlow hr2
  · rw [wlow, hlc, div_lt_one hr2]
    linarith
  · rw [whigh, hhc]
    exact div_pos (by linarith) hr2
  · rw [whigh, hhc, div_lt_one hr2]
    linarith
  · rw [wlow, whigh, hlc, hhc]
    exact (div_lt_div_iff_of_pos_right hr2).mpr (by linarith)

/-- With the scripted inputs exhausted, an iteration still synthesizes and
plays before blocking on `input()`. -/
theorem loop_nil {s : MatchState} (h : synthOK s) :
    tinnitus_matching s [] =
      ([SessionEvent.synth s.centre_freq s.bandwidth s.duration_sec,
        SessionEvent.play], .awaitingInput s) := by
  rw [tinnitus_matching, if_pos h]

/-- When synthesis raises, the uncaught exception aborts the session before
any event of that iteration. -/
theorem loop_crash {s : MatchState} (h : ¬ synthOK s) (inputs : List String) :
    tinnitus_matching s inputs = ([], .crashed) := by
  cases inputs <;> rw [tinnitus_matching, if_neg h]

theorem loop_cons_loop {s s2 : MatchState} {inp : String} {rest : List String}
    (h : synthOK s) (hd : dispatch s inp = (s2, .loop)) :
    tinnitus_matching s (inp :: rest) =
      (SessionEvent.synth s.centre_freq s.bandwidth s.duration_sec ::
        SessionEvent.play :: (tinnitus_matching s2 rest).1,
        (tinnitus_matching s2 rest).2) := by
  rw [tinnitus_matching, if_pos h, hd]

theorem loop_cons_exit {s s2 : MatchState} {inp : String} {rest : List String}
    (h : synthOK s) (hd : dispatch s inp = (s2, .exit)) :
    tinnitus_matching s (inp :: rest) =
      ([SessionEvent.synth s.centre_freq s.bandwidth s.duration_sec,
        SessionEvent.play],
        .finished (s2.centre_freq, s2.bandwidth, s2.sample_rate, s2.duration_sec)) := by
  rw [tinnitus_matching, if_pos h, hd]

theorem loop_cons_invalid {s s2 : MatchState} {inp : String} {rest : List String}
    (h : synthOK s) (hd : dispatch s inp = (s2, .invalid)) :
    tinnitus_matching s (inp :: rest) =
      (SessionEvent.synth s.centre_freq s.bandwidth s.duration_sec ::
        SessionEvent.play :: SessionEvent.feedback :: (tinnitus_matching s2 rest).1,
        (tinnitus_matching s2 rest).2) := by
  rw [tinnitus_matching, if_pos h, hd]

/-- No branch of the input dispatch ever touches the sample rate. -/
theorem dispatch_sample_rate (s : MatchState) (inp : String) :
    ((dispatch s inp).1).sample_rate = s.sample_rate := by
  rw [dispatch]
  split_ifs <;> rfl

/-- Whatever snapshot a session run returns carries the sample rate the
session started with. -/
theorem loop_finished_rate :
    ∀ (inputs : List String) (s : MatchState) (snap : ℝ × ℝ × ℝ × ℝ),
      (tinnitus_matching s inputs).2 = .finished snap →
      snap.2.2.1 = s.sample_rate := by
  intro inputs
  induction inputs with
  | nil =>
    intro s snap h
    by_cases hOK : synthOK s
    · rw [loop_nil hOK] at h; cases h
    · rw [loop_crash hOK] at h; cases h
  | cons inp rest ih =>
    intro s snap h
    by_cases hOK : synthOK s
    · rcases hd : dispatch s inp with ⟨s2, k⟩
      have hrate : s2.sample_rate = s.sample_rate := by
        have hds := dispatch_sample_rate s inp
        rw [hd] at hds
        exact hds
      cases k with
      | exit =>
        rw [loop_cons_exit hOK hd] at h
        cases h
        exact hrate
      | loop =>
        rw [loop_cons_loop hOK hd] at h
        exact (ih s2 snap (by simpa using h)).trans hrate
      | invalid =>
        rw [loop_cons_invalid hOK hd] at h
        exact (ih s2 snap (by simpa using h)).trans hrate
    · rw [loop_crash hOK] at h; cases h

/-- Synthesis succeeds on the default parameters. -/
theorem synthOK_initial : synthOK initial_state := by
  refine synthOK_of ?_ ?_ ?_ ?_ ?_ <;> norm_num [initial_state]

/-- When the butter validation rejects the normalised cut-offs, the whole
band-pass synthesis raises, whatever the white-noise step produced. -/
theorem bandpass_error_of_invalid (design : ℚ → ℚ → List ℚ × List ℚ)
    (rng : ℕ → ℚ) (c b d r : ℚ)
    (hbv : ¬ butterValid (wlow c b r) (whigh c b r)) :
    ∃ e, generate_bandpass_noise design rng c b d r = .error e := by
  cases hwn : generate_white_noise rng d r with
  | error e =>
      exact ⟨e, by simp only [generate_bandpass_noise, hwn, Bind.bind, Except.bind]⟩
  | ok noise =>
      exact ⟨.valueError, by simp only [generate_bandpass_noise, hwn, Bind.bind,
        Except.bind, butter4band, if_neg hbv]⟩

/-- C1 counterexample: the claim calls a spec whose clamping yields
`lowCutHz = 0` (centre 50 Hz, bandwidth 200 Hz, sample rate 44100 Hz) valid
and demands success, but the code normalises the clamped zero cut-off to a
critical frequency of 0, which the butter design step rejects with
`ValueError`, so `generate_bandpass_noise` fails on exactly that spec. -/
theorem c1_clamped_lowcut_zero_fails :
    lowcut (50:ℚ) 200 = 0 ∧
    generate_bandpass_noise design0 rng0 50 200 (1/44100) 44100 =
      .error .valueError := by
  constructor
  · norm_num [lowcut]
  · norm_num [generate_bandpass_noise, generate_white_noise, butter4band, pyInt,
      butterValid, wlow, whigh, lowcut, highcut, Bind.bind, Except.bind]

/-- C1 (amended): for every filter spec whose clamped cut-offs satisfy the
strict invariant `0 < lowCutHz < highCutHz < Nyquist`, with positive duration
and sample rate, `generate_bandpass_noise` succeeds without error and returns
a buffer of the same length as the generated white-noise buffer, all of whose
entries are well-defined rationals. -/
theorem c1_shape_succeeds_on_strict_range
    (design : ℚ → ℚ → List ℚ × List ℚ) (rng : ℕ → ℚ)
    (c b d r : ℚ) (h0 : 0 < lowcut c b) (hlh : lowcut c b < highcut c b r)
    (hn : highcut c b r < r/2) (hd : 0 < d) (hr : 0 < r) :
    ∃ noise out, generate_white_noise rng d r = .ok noise ∧
      generate_bandpass_noise design rng c b d r = .ok out ∧
      out.length = noise.length := by
  have hdr : (0:ℚ) ≤ d * r := le_of_lt (mul_pos hd hr)
  have hfloor : 0 ≤ pyInt (d * r) := by
    simp only [pyInt, if_pos hdr]
    exact Int.floor_nonneg.mpr hdr
  have hnoise : generate_white_noise rng d r =
      .ok ((List.range (pyInt (d * r)).toNat).map rng) := by
    simp only [generate_white_noise]
    rw [if_neg (not_lt.mpr hfloor)]
  have hnyq : (0:ℚ) < 1/2 * r := by linarith
  have hbv : butterValid (wlow c b r) (whigh c b r) := by
    refine ⟨?_, ?_, ?_, ?_, ?_⟩
    · rw [wlow]
      exact div_pos h0 hnyq
    · rw [wlow, div_lt_one hnyq]
      linarith
    · rw [whigh]
      exact div_pos (lt_trans h0 hlh) hnyq
    · rw [whigh, div_lt_one hnyq]
      linarith
    · rw [wlow, whigh]
      exact (div_lt_div_iff_of_pos_right hnyq).mpr hlh
  refine ⟨(List.range (pyInt (d * r)).toNat).map rng,
    lfilter (design (wlow c b r) (whigh c b r)).1
      (design (wlow c b r) (whigh c b r)).2
      ((List.range (pyInt (d * r)).toNat).map rng), hnoise, ?_, ?_⟩
  · simp only [generate_bandpass_noise, hnoise, Bind.bind, Except.bind,
      butter4band, if_pos hbv]
  · rw [lfilter_length]

/-- C1 witness: a concrete strictly-in-range spec on which the amended claim
evaluates. -/
theorem c1_shape_succeeds_on_strict_range_witness :
    ∃ noise out, generate_white_noise rng0 (1/100) 1000 = .ok noise ∧
      generate_bandpass_noise design0 rng0 100 50 (1/100) 1000 = .ok out ∧
      out.length = noise.length :=
  c1_shape_succeeds_on_strict_range design0 rng0 100 50 (1/100) 1000
    (by norm_num [lowcut]) (by norm_num [lowcut, highcut])
    (by norm_num [highcut]) (by norm_num) (by norm_num)

/-- C2 counterexample: the claim demands that synthesis at duration 0 fail
with `InvalidParameter`, but `generate_white_noise` performs no validation:
`int(0 * 44100) = 0` makes numpy return an empty array, the filter design on
the default band succeeds, and the whole synthesis returns an empty buffer
without error. -/
theorem c2_zero_duration_synthesis_succeeds :
    generate_white_noise rng0 0 44100 = .ok [] ∧
    generate_bandpass_noise design0 rng0 2000 320 0 44100 = .ok [] := by
  have hwn : generate_white_noise rng0 0 44100 = .ok [] := by
    simp [generate_white_noise, pyInt]
  refine ⟨hwn, ?_⟩
  have hbv : butterValid (wlow (2000:ℚ) 320 44100) (whigh (2000:ℚ) 320 44100) := by
    norm_num [butterValid, wlow, whigh, lowcut, highcut, max_def, min_def]
  simp only [generate_bandpass_noise, hwn, Bind.bind, Except.bind, butter4band,
    if_pos hbv]
  rfl

/-- C2 (amended): the session applies mutations with no rollback and no
exception handler.  Applying DecreaseDuration three times from the default
duration 3 leaves the MatchState at duration 0, and the next synthesis
attempt does not fail: it succeeds (with an empty buffer) and is played, the
session remaining active at duration 0.  Synthesis failures are not caught at
session level: a state on which filter design raises aborts the session
before any feedback. -/
theorem c2_session_decrease_duration_scenario :
    tinnitus_matching initial_state [r"6", r"6", r"6"] =
      ([SessionEvent.synth 2000 320 3, SessionEvent.play,
        SessionEvent.synth 2000 320 2, SessionEvent.play,
        SessionEvent.synth 2000 320 1, SessionEvent.play,
        SessionEvent.synth 2000 320 0, SessionEvent.play],
        .awaitingInput (⟨2000, 320, 0, 44100⟩ : MatchState)) ∧
    tinnitus_matching (⟨100, 400, 3, 44100⟩ : MatchState) [r"7"] =
      ([], .crashed) := by
  constructor
  · have e1 : dispatch initial_state r"6" =
        ((⟨2000, 320, 3 - 1, 44100⟩ : MatchState), .loop) := rfl
    have e2 : dispatch (⟨2000, 320, 3 - 1, 44100⟩ : MatchState) r"6" =
        ((⟨2000, 320, 3 - 1 - 1, 44100⟩ : MatchState), .loop) := rfl
    have e3 : dispatch (⟨2000, 320, 3 - 1 - 1, 44100⟩ : MatchState) r"6" =
        ((⟨2000, 320, 3 - 1 - 1 - 1, 44100⟩ : MatchState), .loop) := rfl
    have h1 : synthOK (⟨2000, 320, 3 - 1, 44100⟩ : MatchState) := by
      refine synthOK_of ?_ ?_ ?_ ?_ ?_ <;> norm_num
    have h2 : synthOK (⟨2000, 320, 3 - 1 - 1, 44100⟩ : MatchState) := by
      refine synthOK_of ?_ ?_ ?_ ?_ ?_ <;> norm_num
    have h3 : synthOK (⟨2000, 320, 3 - 1 - 1 - 1, 44100⟩ : MatchState) := by
      refine synthOK_of ?_ ?_ ?_ ?_ ?_ <;> norm_num
    rw [loop_cons_loop synthOK_initial e1, loop_cons_loop h1 e2,
      loop_cons_loop h2 e3, loop_nil h3]
    norm_num [initial_state]
  · apply loop_crash
    intro h
    have hbv := h.2
    norm_num [butterValid, wlow, whigh, lowcut, highcut, max_def, min_def] at hbv

/-- C3 counterexample: the length contract is not `round(duration ×
sampleRate)`.  At duration 0.96 s and sample rate 10 Hz the product is 9.6:
rounding gives 10, but the code truncates with `int(...)` and returns a
9-sample buffer. -/
theorem c3_length_truncates_not_rounds :
    (∃ noise, generate_white_noise rng0 (96/100) 10 = .ok noise ∧
      noise.length = 9) ∧
    round ((96/100 : ℚ) * 10) = 10 := by
  constructor
  · refine ⟨(List.range 9).map rng0, ?_, by simp⟩
    have hf : (⌊(96/100 : ℚ) * 10⌋ : ℤ) = 9 := by
      rw [Int.floor_eq_iff]
      norm_num
    norm_num [generate_white_noise, pyInt, hf]
    rfl
  · rw [round_eq]
    rw [Int.floor_eq_iff]
    norm_num

/-- C3 (amended): for positive duration and sample rate, the generate
operation returns a buffer of length `int(durationSec × sampleRateHz)`
(truncation toward zero, not rounding), every sample being a draw of the
random source and hence lying in `[-1, 1]` whenever the source does, and any
successful band-pass shape over the same duration and rate returns a buffer
of that same length. -/
theorem c3_generate_contract (rng : ℕ → ℚ) (d r : ℚ) (hd : 0 < d) (hr : 0 < r)
    (hbound : ∀ i, -1 ≤ rng i ∧ rng i ≤ 1) :
    ∃ noise, generate_white_noise rng d r = .ok noise ∧
      noise.length = (pyInt (d * r)).toNat ∧
      (∀ x ∈ noise, -1 ≤ x ∧ x ≤ 1) ∧
      (∀ (design : ℚ → ℚ → List ℚ × List ℚ) (c b : ℚ) (out : List ℚ),
        generate_bandpass_noise design rng c b d r = .ok out →
        out.length = noise.length) := by
  have hdr : (0:ℚ) ≤ d * r := le_of_lt (mul_pos hd hr)
  have hfloor : 0 ≤ pyInt (d * r) := by
    simp only [pyInt, if_pos hdr]
    exact Int.floor_nonneg.mpr hdr
  have hnoise : generate_white_noise rng d r =
      .ok ((List.range (pyInt (d * r)).toNat).map rng) := by
    simp only [generate_white_noise]
    rw [if_neg (not_lt.mpr hfloor)]
  refine ⟨(List.range (pyInt (d * r)).toNat).map rng, hnoise, by simp, ?_, ?_⟩
  · intro x hx
    simp only [List.mem_map] at hx
    obtain ⟨i, _, rfl⟩ := hx
    exact hbound i
  · intro design c b out hout
    by_cases hbv : butterValid (wlow c b r) (whigh c b r)
    · simp only [generate_bandpass_noise, hnoise, Bind.bind, Except.bind,
        butter4band, if_pos hbv] at hout
      cases hout
      rw [lfilter_length]
    · simp only [generate_bandpass_noise, hnoise, Bind.bind, Except.bind,
        butter4band, if_neg hbv] at hout
      cases hout

/-- C3 witness: the contract evaluated at duration 2 s and rate 3 Hz with the
all-zero random source. -/
theorem c3_generate_contract_witness :
    ∃ noise, generate_white_noise rng0 2 3 = .ok noise ∧
      noise.length = (pyInt ((2:ℚ) * 3)).toNat ∧
      (∀ x ∈ noise, -1 ≤ x ∧ x ≤ 1) ∧
      (∀ (design : ℚ → ℚ → List ℚ × List ℚ) (c b : ℚ) (out : List ℚ),
        generate_bandpass_noise design rng0 c b 2 3 = .ok out →
        out.length = noise.length) :=
  c3_generate_contract rng0 2 3 (by norm_num) (by norm_num)
    (fun i => by norm_num [rng0])

/-- C4: every spec whose clamped cut-offs violate the invariant
`0 ≤ lowCutHz < highCutHz ≤ Nyquist` makes the filter design step fail with
an error rather than silently producing coefficients, and so does every spec
whose centre frequency sits exactly at Nyquist with positive bandwidth. -/
theorem c4_invalid_range_fails :
    (∀ (design : ℚ → ℚ → List ℚ × List ℚ) (rng : ℕ → ℚ) (c b d r : ℚ),
      ¬ (0 ≤ lowcut c b ∧ lowcut c b < highcut c b r ∧ highcut c b r ≤ r/2) →
      ∃ e, generate_bandpass_noise design rng c b d r = .error e) ∧
    (∀ (design : ℚ → ℚ → List ℚ × List ℚ) (rng : ℕ → ℚ) (c b d r : ℚ),
      c = r/2 → 0 < b → 0 < r →
      ∃ e, generate_bandpass_noise design rng c b d r = .error e) := by
  constructor
  · intro design rng c b d r hviol
    have h0 : (0:ℚ) ≤ lowcut c b := le_max_left 0 _
    have hhr : highcut c b r ≤ r/2 := min_le_left _ _
    have hge : highcut c b r ≤ lowcut c b := by
      by_contra hlt
      push_neg at hlt
      exact hviol ⟨h0, hlt, hhr⟩
    refine bandpass_error_of_invalid design rng c b d r ?_
    rintro ⟨h1, _, _, _, h5⟩
    rcases lt_trichotomy ((1:ℚ)/2 * r) 0 with hneg | hzero | hpos
    · rw [wlow] at h1
      have hle : lowcut c b / (1/2 * r) ≤ 0 :=
        div_nonpos_of_nonneg_of_nonpos h0 hneg.le
      linarith
    · rw [wlow, hzero, div_zero] at h1
      exact lt_irrefl 0 h1
    · rw [wlow, whigh] at h5
      have := (div_lt_div_iff_of_pos_right hpos).mp h5
      linarith
  · intro design rng c b d r hc hb hr
    have hhc : highcut c b r = r/2 := by
      rw [highcut, hc]
      exact min_eq_left (by linarith)
    refine bandpass_error_of_invalid design rng c b d r ?_
    rintro ⟨_, _, _, h4, _⟩
    rw [whigh, hhc] at h4
    rw [show ((1:ℚ)/2 * r) = r/2 by ring] at h4
    rw [div_self (by linarith : (r:ℚ)/2 ≠ 0)] at h4
    exact lt_irrefl 1 h4

/-- C4 witness: a spec whose clamped cut-offs are inverted (centre 30000 Hz,
bandwidth 100 Hz, sample rate 44100 Hz gives lowcut 29950 above highcut
22050) fails as claimed. -/
theorem c4_invalid_range_fails_witness :
    ∃ e, generate_bandpass_noise design0 rng0 30000 100 1 44100 = .error e :=
  c4_invalid_range_fails.1 design0 rng0 30000 100 1 44100
    (by norm_num [lowcut, highcut, max_def, min_def])

/-- C7 counterexample: the claim says generate must fail whenever
`durationSec ≤ 0`, but at duration `-1/100000` s and rate 1 Hz the Python
`int()` of the product is 0, numpy accepts the size, and the call returns an
empty buffer without error. -/
theorem c7_nonpositive_duration_succeeds :
    ((-1/100000 : ℚ) ≤ 0) ∧
    generate_white_noise rng0 (-1/100000) 1 = .ok [] := by
  constructor
  · norm_num
  · have hc : (⌈(-(1/100000) : ℚ)⌉ : ℤ) = 0 := by
      rw [Int.ceil_eq_zero_iff]
      constructor <;> norm_num
    norm_num [generate_white_noise, pyInt, hc]

/-- C7 (amended): the generate operation fails if and only if the truncated
product `int(durationSec × sampleRateHz)` is negative (fed to numpy as a
negative dimension); in particular it succeeds for all positive arguments. -/
theorem c7_generate_error_iff (rng : ℕ → ℚ) (d r : ℚ) :
    ((∃ e, generate_white_noise rng d r = .error e) ↔ pyInt (d * r) < 0) ∧
    (0 < d → 0 < r → ∃ noise, generate_white_noise rng d r = .ok noise) := by
  constructor
  · by_cases h : pyInt (d * r) < 0
    · simp only [generate_white_noise]
      rw [if_pos h]
      constructor
      · intro _
        exact h
      · intro _
        exact ⟨.valueError, rfl⟩
    · simp only [generate_white_noise]
      rw [if_neg h]
      constructor
      · rintro ⟨e, he⟩
        cases he
      · intro hlt
        exact absurd hlt h
  · intro hd hr
    have hdr : (0:ℚ) ≤ d * r := le_of_lt (mul_pos hd hr)
    have hfloor : 0 ≤ pyInt (d * r) := by
      simp only [pyInt, if_pos hdr]
      exact Int.floor_nonneg.mpr hdr
    refine ⟨(List.range (pyInt (d * r)).toNat).map rng, ?_⟩
    simp only [generate_white_noise]
    rw [if_neg (not_lt.mpr hfloor)]

/-- C7 witness: generate succeeds at duration 1 s and rate 2 Hz. -/
theorem c7_generate_error_iff_witness :
    ∃ noise, generate_white_noise rng0 1 2 = .ok noise :=
  (c7_generate_error_iff rng0 1 2).2 (by norm_num) (by norm_num)

/-- C5: the transition function implements exactly the command table
(IncreaseCentre multiplies the centre by the one-third-octave factor, whose
cube is 2; DecreaseCentre divides by it; the bandwidth steps add or subtract
50 Hz; the duration steps add or subtract 1 s; Replay changes nothing), and
from the defaults the scenario IncreaseCentre, IncreaseBandwidth, Finish
returns the snapshot (2000 × 2^(1/3) ≈ 2519.84 Hz, 370 Hz, 44100 Hz, 3 s). -/
theorem c5_transition_table :
    (∀ s : MatchState, dispatch s r"1" =
      ({ s with centre_freq := s.centre_freq * octave_factor }, .loop)) ∧
    (∀ s : MatchState, dispatch s r"2" =
      ({ s with centre_freq := s.centre_freq / octave_factor }, .loop)) ∧
    (∀ s : MatchState, dispatch s r"3" =
      ({ s with bandwidth := s.bandwidth + 50 }, .loop)) ∧
    (∀ s : MatchState, dispatch s r"4" =
      ({ s with bandwidth := s.bandwidth - 50 }, .loop)) ∧
    (∀ s : MatchState, dispatch s r"5" =
      ({ s with duration_sec := s.duration_sec + 1 }, .loop)) ∧
    (∀ s : MatchState, dispatch s r"6" =
      ({ s with duration_sec := s.duration_sec - 1 }, .loop)) ∧
    (∀ s : MatchState, dispatch s r"7" = (s, .loop)) ∧
    octave_factor ^ 3 = 2 ∧ 1 < octave_factor ∧
    tinnitus_matching initial_state [r"1", r"3", r"0"] =
      ([SessionEvent.synth 2000 320 3, SessionEvent.play,
        SessionEvent.synth (2000 * octave_factor) 320 3, SessionEvent.play,
        SessionEvent.synth (2000 * octave_factor) 370 3, SessionEvent.play],
        .finished (2000 * octave_factor, 370, 44100, 3)) ∧
    |2000 * octave_factor - 251984/100| < 1/100 := by
  have hlb := octave_factor_lb
  have hub := octave_factor_ub
  refine ⟨fun s => rfl, fun s => rfl, fun s => rfl, fun s => rfl, fun s => rfl,
    fun s => rfl, fun s => rfl, octave_factor_cube, octave_factor_gt_one,
    ?_, ?_⟩
  · have e1 : dispatch initial_state r"1" =
        ((⟨2000 * octave_factor, 320, 3, 44100⟩ : MatchState), .loop) := rfl
    have e2 : dispatch (⟨2000 * octave_factor, 320, 3, 44100⟩ : MatchState) r"3" =
        ((⟨2000 * octave_factor, 320 + 50, 3, 44100⟩ : MatchState), .loop) := rfl
    have e3 : dispatch (⟨2000 * octave_factor, 320 + 50, 3, 44100⟩ : MatchState) r"0" =
        ((⟨2000 * octave_factor, 320 + 50, 3, 44100⟩ : MatchState), .exit) := rfl
    have h1 : synthOK (⟨2000 * octave_factor, 320, 3, 44100⟩ : MatchState) := by
      refine synthOK_of ?_ ?_ ?_ ?_ ?_
      · norm_num
      · show (0:ℝ) < 2000 * octave_factor - 320/2
        linarith
      · show (2000:ℝ) * octave_factor + 320/2 < 44100/2
        linarith
      · norm_num
      · norm_num
    have h2 : synthOK (⟨2000 * octave_factor, 320 + 50, 3, 44100⟩ : MatchState) := by
      refine synthOK_of ?_ ?_ ?_ ?_ ?_
      · norm_num
      · show (0:ℝ) < 2000 * octave_factor - (320 + 50)/2
        linarith
      · show (2000:ℝ) * octave_factor + (320 + 50)/2 < 44100/2
        linarith
      · norm_num
      · norm_num
    rw [loop_cons_loop synthOK_initial e1, loop_cons_loop h1 e2,
      loop_cons_exit h2 e3]
    norm_num [initial_state]
  · rw [abs_lt]
    constructor <;> linarith

/-- C6 counterexample: after the unrecognized input x the session does not
merely report feedback and wait: the loop comes back to its head and
re-synthesizes and re-plays the unchanged stimulus before reading the next
command, as the full event trace of the run on inputs [x, 0] shows. -/
theorem c6_unrecognized_triggers_replay :
    tinnitus_matching initial_state [r"x", r"0"] =
      ([SessionEvent.synth 2000 320 3, SessionEvent.play, SessionEvent.feedback,
        SessionEvent.synth 2000 320 3, SessionEvent.play],
        .finished (2000, 320, 44100, 3)) := by
  have e1 : dispatch initial_state r"x" = (initial_state, .invalid) := rfl
  have e2 : dispatch initial_state r"0" = (initial_state, .exit) := rfl
  rw [loop_cons_invalid synthOK_initial e1, loop_cons_exit synthOK_initial e2]
  norm_num [initial_state]

/-- C6 (amended): on any input outside the recognized eight, the MatchState
is left unchanged, invalid-command feedback is reported and the session stays
active; but the loop then re-synthesizes and re-plays the unchanged stimulus
before the next command is read. -/
theorem c6_unrecognized_keeps_state (s : MatchState) (inp : String)
    (rest : List String)
    (hinp : inp ∉ ([r"1", r"2", r"3", r"4", r"5", r"6", r"7", r"0"] : List String))
    (hOK : synthOK s) :
    dispatch s inp = (s, .invalid) ∧
    tinnitus_matching s (inp :: rest) =
      (SessionEvent.synth s.centre_freq s.bandwidth s.duration_sec ::
        SessionEvent.play :: SessionEvent.feedback ::
        (tinnitus_matching s rest).1,
        (tinnitus_matching s rest).2) := by
  simp only [List.mem_cons, List.not_mem_nil, or_false, not_or] at hinp
  obtain ⟨n1, n2, n3, n4, n5, n6, n7, n8⟩ := hinp
  have hd : dispatch s inp = (s, .invalid) := by
    rw [dispatch, if_neg n1, if_neg n2, if_neg n3, if_neg n4, if_neg n5,
      if_neg n6, if_neg n7, if_neg n8]
  exact ⟨hd, loop_cons_invalid hOK hd⟩

/-- C6 witness: the amended claim evaluated at the default state on the
unrecognized input x. -/
theorem c6_unrecognized_keeps_state_witness :
    dispatch initial_state r"x" = (initial_state, .invalid) ∧
    tinnitus_matching initial_state [r"x"] =
      (SessionEvent.synth initial_state.centre_freq initial_state.bandwidth
          initial_state.duration_sec ::
        SessionEvent.play :: SessionEvent.feedback ::
        (tinnitus_matching initial_state []).1,
        (tinnitus_matching initial_state []).2) :=
  c6_unrecognized_keeps_state initial_state r"x" [] (by decide) synthOK_initial

/-- C8: applying IncreaseCentre then DecreaseCentre returns the centre
frequency to its original value exactly (the multiplicative step cancels in
the real-number model, which implies recovery within any floating-point
tolerance). -/
theorem c8_centre_roundtrip (s : MatchState) :
    ((dispatch (dispatch s r"1").1 r"2").1).centre_freq = s.centre_freq := by
  show s.centre_freq * octave_factor / octave_factor = s.centre_freq
  exact mul_div_cancel_right₀ _ (ne_of_gt octave_factor_pos)

/-- C9: each adjustment command modifies exactly one field (the two centre
commands leave bandwidth and duration unchanged, the two bandwidth commands
leave centre and duration unchanged, the two duration commands leave centre
and bandwidth unchanged, Replay changes nothing), no input ever changes the
sample rate, the session starts at 44100 Hz, and every snapshot a finished
run returns carries the sample rate the session started with. -/
theorem c9_frame_conditions :
    (∀ (s : MatchState) (inp : String),
      ((dispatch s inp).1).sample_rate = s.sample_rate) ∧
    (∀ s : MatchState,
      (dispatch s r"1").1.bandwidth = s.bandwidth ∧
      (dispatch s r"1").1.duration_sec = s.duration_sec ∧
      (dispatch s r"2").1.bandwidth = s.bandwidth ∧
      (dispatch s r"2").1.duration_sec = s.duration_sec ∧
      (dispatch s r"3").1.centre_freq = s.centre_freq ∧
      (dispatch s r"3").1.duration_sec = s.duration_sec ∧
      (dispatch s r"4").1.centre_freq = s.centre_freq ∧
      (dispatch s r"4").1.duration_sec = s.duration_sec ∧
      (dispatch s r"5").1.centre_freq = s.centre_freq ∧
      (dispatch s r"5").1.bandwidth = s.bandwidth ∧
      (dispatch s r"6").1.centre_freq = s.centre_freq ∧
      (dispatch s r"6").1.bandwidth = s.bandwidth ∧
      (dispatch s r"7").1 = s) ∧
    initial_state.sample_rate = 44100 ∧
    (∀ (s : MatchState) (inputs : List String) (snap : ℝ × ℝ × ℝ × ℝ),
      (tinnitus_matching s inputs).2 = .finished snap →
      snap.2.2.1 = s.sample_rate) :=
  ⟨dispatch_sample_rate,
    fun s => ⟨rfl, rfl, rfl, rfl, rfl, rfl, rfl, rfl, rfl, rfl, rfl, rfl, rfl⟩,
    rfl,
    fun s inputs snap h => loop_finished_rate inputs s snap h⟩

/-- C9 witness: the snapshot of a finished default run carries the starting
sample rate. -/
theorem c9_frame_conditions_witness :
    ((2000:ℝ), (320:ℝ), (44100:ℝ), (3:ℝ)).2.2.1 = initial_state.sample_rate :=
  c9_frame_conditions.2.2.2 initial_state [r"0"] (2000, 320, 44100, 3) (by
    have e1 : dispatch initial_state r"0" = (initial_state, .exit) := rfl
    rw [loop_cons_exit synthOK_initial e1]
    norm_num [initial_state])

/-- C10: in every turn that does not abort, synthesis of the current
parameters and playback are the first two events, before any command is
read; in particular the default stimulus is synthesized and played once even
when the very first command is Finish. -/
theorem c10_synth_play_before_input :
    (∀ (s : MatchState) (inputs : List String),
      (tinnitus_matching s inputs).1.take 2 =
        [SessionEvent.synth s.centre_freq s.bandwidth s.duration_sec,
          SessionEvent.play] ∨
      tinnitus_matching s inputs = ([], .crashed)) ∧
    tinnitus_matching initial_state [r"0"] =
      ([SessionEvent.synth 2000 320 3, SessionEvent.play],
        .finished (2000, 320, 44100, 3)) := by
  constructor
  · intro s inputs
    by_cases hOK : synthOK s
    · left
      cases inputs with
      | nil =>
        rw [loop_nil hOK]
        rfl
      | cons inp rest =>
        rcases hd : dispatch s inp with ⟨s2, k⟩
        cases k with
        | loop =>
          rw [loop_cons_loop hOK hd]
          rfl
        | exit =>
          rw [loop_cons_exit hOK hd]
          rfl
        | invalid =>
          rw [loop_cons_invalid hOK hd]
          rfl
    · right
      exact loop_crash hOK inputs
  · have e1 : dispatch initial_state r"0" = (initial_state, .exit) := rfl
    rw [loop_cons_exit synthOK_initial e1]
    norm_num [initial_state]
